import Mathlib

/-!
Verification of the ZKTeco protocol core of the horus-attendance repository.

Bytes are modelled as `Nat` (always `< 256` when produced by the code paths),
byte buffers as `List Nat`, and machine-integer arithmetic with explicit
`% 2^16` / `% 2^32` where Rust wrapping or truncation occurs.

Every definition is a shallow embedding of the corresponding Rust item in
`src-tauri/src/zkteco/` (protocol.rs, tcp.rs, udp.rs, client.rs); names
follow the source.
-/

namespace ZK

/-- `u16::MAX` as used by the checksum (protocol.rs `USHRT_MAX`). -/
def USHRT_MAX : Nat := 65535

/-- Per-chunk payload limit (protocol.rs `MAX_CHUNK`). -/
def MAX_CHUNK : Nat := 65472

/-- Little-endian bytes of a 16-bit value, as `u16::to_le_bytes`
(truncates larger inputs exactly like `as u16`). -/
def toLe16 (n : Nat) : List Nat := [n % 256, n / 256 % 256]

/-- Little-endian bytes of a 32-bit value, as `u32::to_le_bytes`. -/
def le32 (n : Nat) : List Nat :=
  [n % 256, n / 256 % 256, n / 65536 % 256, n / 16777216 % 256]

/-- Read a little-endian 16-bit value at byte offset `off` (missing bytes read as 0,
mirroring `u16::from_le_bytes([buf[off], buf[off+1]])` on in-range input). -/
def readLe16 (buf : List Nat) (off : Nat) : Nat :=
  buf.getD off 0 + 256 * buf.getD (off + 1) 0

/-- The summation loop of protocol.rs `create_checksum`: the `u32` accumulator
is reduced `% USHRT_MAX` after every addition, a trailing odd byte is added
as a byte. -/
def checksumLoop : List Nat → Nat → Nat
  | [], acc => acc
  | [b], acc => (acc + b) % USHRT_MAX
  | b0 :: b1 :: rest, acc => checksumLoop rest ((acc + (b0 + 256 * b1)) % USHRT_MAX)

/-- protocol.rs `create_checksum`: sum little-endian 16-bit words modulo 65535,
then return `65535 - sum - 1`. -/
def create_checksum (buf : List Nat) : Nat :=
  USHRT_MAX - checksumLoop buf 0 - 1

/-- The on-wire reply id written by the encoders:
`(reply_id.wrapping_add(1)) % (USHRT_MAX as u16)`. -/
def wireReply (reply_id : Nat) : Nat := ((reply_id + 1) % 65536) % USHRT_MAX

/-- protocol.rs `create_udp_header`: 8-byte header followed by the payload.
The checksum is computed over the buffer with the checksum field still zero,
after the wire reply id has been written. -/
def create_udp_header (command session_id reply_id : Nat) (data : List Nat) : List Nat :=
  let next := wireReply reply_id
  let buf := toLe16 command ++ [0, 0] ++ toLe16 session_id ++ toLe16 next ++ data
  let chksum := create_checksum buf
  toLe16 command ++ toLe16 chksum ++ toLe16 session_id ++ toLe16 next ++ data

/-- protocol.rs `create_tcp_header`: 8-byte TCP envelope
(`50 50 82 7d`, little-endian inner length at offset 4, two zero bytes)
followed by the same inner packet a UDP encoder would build. -/
def create_tcp_header (command session_id reply_id : Nat) (data : List Nat) : List Nat :=
  let next := wireReply reply_id
  let buf := toLe16 command ++ [0, 0] ++ toLe16 session_id ++ toLe16 next ++ data
  let chksum := create_checksum buf
  let inner := toLe16 command ++ toLe16 chksum ++ toLe16 session_id ++ toLe16 next ++ data
  [0x50, 0x50, 0x82, 0x7d] ++ toLe16 (8 + data.length) ++ [0, 0] ++ inner

/-- protocol.rs `remove_tcp_header`: strip the 8-byte envelope when the
4-byte magic is present. -/
def remove_tcp_header (buf : List Nat) : List Nat :=
  if buf.length < 8 then buf
  else if buf.take 4 = [0x50, 0x50, 0x82, 0x7d] then buf.drop 8 else buf

/-- A packet with its 16-bit checksum field (offset 2) zeroed. -/
def zeroChecksum (p : List Nat) : List Nat := p.take 2 ++ [0, 0] ++ p.drop 4

/-- The checksum loop keeps its accumulator below 65535. -/
theorem checksumLoop_lt :
    ∀ (buf : List Nat) (acc : Nat), acc < USHRT_MAX → checksumLoop buf acc < USHRT_MAX
  | [], _, h => by simpa [checksumLoop] using h
  | [b], acc, _ => by
    simp only [checksumLoop]
    exact Nat.mod_lt _ (by decide)
  | b0 :: b1 :: rest, acc, _ => by
    simp only [checksumLoop]
    exact checksumLoop_lt rest _ (Nat.mod_lt _ (by decide))

/-- The checksum always fits in 16 bits. -/
theorem create_checksum_lt (buf : List Nat) : create_checksum buf < 65536 := by
  unfold create_checksum USHRT_MAX
  have := checksumLoop_lt buf 0 (by decide)
  unfold USHRT_MAX at this
  omega

theorem le16_roundtrip (n : Nat) (h : n < 65536) : n % 256 + 256 * (n / 256 % 256) = n := by
  omega

/-- **C1.** For every packet produced by `create_udp_header` or
`create_tcp_header` (any command, session id, local reply id and payload),
the little-endian 16-bit value at offset 2 of the inner 8-byte header equals
`create_checksum` applied to that inner packet with the checksum field zeroed;
the zeroed packet already carries the on-wire reply id, so the checksum is
computed after that value has been written. -/
theorem checksum_field_correct (command session_id reply_id : Nat) (data : List Nat) :
    readLe16 (create_udp_header command session_id reply_id data) 2 =
      create_checksum (zeroChecksum (create_udp_header command session_id reply_id data)) ∧
    readLe16 ((create_tcp_header command session_id reply_id data).drop 8) 2 =
      create_checksum
        (zeroChecksum ((create_tcp_header command session_id reply_id data).drop 8)) := by
  have hck := create_checksum_lt
    (toLe16 command ++ [0, 0] ++ toLe16 session_id ++ toLe16 (wireReply reply_id) ++ data)
  constructor
  · simp only [create_udp_header, zeroChecksum, toLe16, readLe16, List.cons_append,
      List.nil_append, List.take, List.drop, List.getD, List.getElem?_cons_zero,
      List.getElem?_cons_succ, Option.getD_some]
    exact le16_roundtrip _ hck
  · simp only [create_tcp_header, zeroChecksum, toLe16, readLe16, List.cons_append,
      List.nil_append, List.take, List.drop, List.getD, List.getElem?_cons_zero,
      List.getElem?_cons_succ, Option.getD_some]
    exact le16_roundtrip _ hck

/-- The inner packet of a TCP frame is exactly the packet the UDP encoder builds. -/
theorem create_tcp_header_drop8 (c s r : Nat) (d : List Nat) :
    (create_tcp_header c s r d).drop 8 = create_udp_header c s r d := by
  simp [create_tcp_header, create_udp_header, toLe16]

/-- The payload of a UDP packet starts at offset 8. -/
theorem create_udp_header_payload (c s r : Nat) (d : List Nat) :
    (create_udp_header c s r d).drop 8 = d := by
  simp [create_udp_header, toLe16]

/-- The command field of a UDP packet. -/
theorem create_udp_header_command (c s r : Nat) (d : List Nat) (h : c < 65536) :
    readLe16 (create_udp_header c s r d) 0 = c := by
  simp only [create_udp_header, toLe16, readLe16, List.cons_append, List.nil_append,
    List.getD, List.getElem?_cons_zero, List.getElem?_cons_succ, Option.getD_some]
  exact le16_roundtrip _ h

/-- The reply-id field a UDP packet carries is `wireReply` of the local counter. -/
theorem create_udp_header_reply (c s r : Nat) (d : List Nat) :
    readLe16 (create_udp_header c s r d) 6 = wireReply r := by
  have h : wireReply r < 65536 :=
    lt_trans (Nat.mod_lt _ (by decide)) (by norm_num [USHRT_MAX])
  simp only [create_udp_header, toLe16, readLe16, List.cons_append, List.nil_append,
    List.getD, List.getElem?_cons_zero, List.getElem?_cons_succ, Option.getD_some]
  exact le16_roundtrip _ h

/-- tcp.rs / udp.rs `execute_cmd` counter update: CMD_CONNECT (1000) resets
both `session_id` and `reply_id` to 0; every other command increments the
16-bit local reply counter with wrapping. -/
def execute_cmd_counters (session_id reply_id command : Nat) : Nat × Nat :=
  if command = 1000 then (0, 0) else (session_id, (reply_id + 1) % 65536)

/-- **C2, counterexample.** At local reply id 65535 the encoders write
`((65535 + 1) mod 2^16) mod 65535 = 0` on the wire, not
`(65535 + 1) mod 65535 = 1` as the claim states. -/
theorem reply_wire_counterexample :
    ¬ readLe16 (create_udp_header 1000 0 65535 []) 6 = (65535 + 1) % 65535 := by
  decide

/-- **C2, amended.** For every session the local reply counter is incremented
(with 16-bit wrapping) before sending on every command except CMD_CONNECT,
which resets both `session_id` and `reply_id` to 0; and the on-wire reply-id
field written by both encoders equals `((r + 1) mod 2^16) mod 65535`, which
coincides with `(r + 1) mod 65535` for every local value `r < 65535` but
equals 0 (not 1) at `r = 65535`. -/
theorem reply_id_behavior (command session_id reply_id : Nat) (data : List Nat)
    (h : reply_id < 65536) :
    execute_cmd_counters session_id reply_id 1000 = (0, 0) ∧
    (command ≠ 1000 →
      execute_cmd_counters session_id reply_id command =
        (session_id, (reply_id + 1) % 65536)) ∧
    readLe16 (create_udp_header command session_id reply_id data) 6 = wireReply reply_id ∧
    readLe16 ((create_tcp_header command session_id reply_id data).drop 8) 6 =
      wireReply reply_id ∧
    wireReply reply_id = ((reply_id + 1) % 65536) % 65535 ∧
    (reply_id < 65535 → wireReply reply_id = (reply_id + 1) % 65535) ∧
    wireReply 65535 = 0 := by
  refine ⟨by simp [execute_cmd_counters], fun hc => by simp [execute_cmd_counters, hc],
    create_udp_header_reply _ _ _ _, ?_, by simp [wireReply, USHRT_MAX], ?_, by decide⟩
  · rw [create_tcp_header_drop8]
    exact create_udp_header_reply _ _ _ _
  · intro hr
    simp only [wireReply, USHRT_MAX]
    omega

/-- Witness for C2 at a concrete input: command 1001, session 7, local reply 5. -/
theorem reply_id_behavior_witness :
    (5 : Nat) < 65536 ∧ readLe16 (create_udp_header 1001 7 5 []) 6 = wireReply 5 :=
  ⟨by decide, (reply_id_behavior 1001 7 5 [] (by decide)).2.2.1⟩

/-- **C3, counterexample.** Encoding CMD_CONNECT (1000) with session 0, local
reply 0 and empty payload does not begin with the envelope bytes the claim
states: the code writes the inner length at envelope offset 4, not offset 6,
so the first eight bytes are `50 50 82 7d 08 00 00 00`, not
`50 50 82 7d 00 00 08 00`. -/
theorem tcp_connect_bytes_counterexample :
    (create_tcp_header 1000 0 0 []).take 8 ≠ [0x50, 0x50, 0x82, 0x7d, 0, 0, 8, 0] := by
  decide

/-- **C3, amended.** Encoding CMD_CONNECT with session 0, local reply 0 and
empty payload yields the TCP bytes `50 50 82 7d 08 00 00 00 e8 03 15 fc 00 00
01 00` (envelope magic, little-endian inner length 8 at offset 4, two zero
padding bytes, then the inner header with wire reply id 1 and checksum
`0xfc15`), and the UDP bytes `e8 03 15 fc 00 00 01 00`. -/
theorem tcp_connect_bytes_amended :
    create_tcp_header 1000 0 0 [] =
      [0x50, 0x50, 0x82, 0x7d, 0x08, 0x00, 0x00, 0x00,
       0xe8, 0x03, 0x15, 0xfc, 0x00, 0x00, 0x01, 0x00] ∧
    create_udp_header 1000 0 0 [] =
      [0xe8, 0x03, 0x15, 0xfc, 0x00, 0x00, 0x01, 0x00] := by
  constructor <;> decide

/-- protocol.rs `check_not_event_udp`: a datagram of at least 8 bytes whose
header command id is CMD_REG_EVENT (500). -/
def check_not_event_udp (data : List Nat) : Bool :=
  if data.length < 8 then false
  else readLe16 data 0 == 500

/-- protocol.rs `check_not_event_tcp`: after stripping the envelope, the
packet is treated as an event only when the 16-bit field at inner offset 4
equals 1 (`EF_ATTLOG`) and the command id is CMD_REG_EVENT (500). -/
def check_not_event_tcp (data : List Nat) : Bool :=
  let d := remove_tcp_header data
  if d.length < 6 then false
  else (readLe16 d 4 == 1) && (readLe16 d 0 == 500)

/-- State of the TCP streaming receive loop in tcp.rs `read_with_buffer`. -/
structure TcpRecvState where
  totalBuffer : List Nat
  realTotalBuffer : List Nat
  replyData : List Nat
  packetsRemaining : Nat
deriving DecidableEq

/-- The inner `while total_buffer.len() >= 8` loop of tcp.rs
`read_with_buffer`, demultiplexing envelope-framed inner packets.
The fuel argument makes the function structurally recursive; each iteration
consumes at least 8 bytes of `totalBuffer`, so fuel `totalBuffer.length`
(supplied by `processPackets`) never runs out before the loop's own
exit condition holds. -/
def processPacketsFuel (remain : Nat) : Nat → TcpRecvState → TcpRecvState
  | 0, st => st
  | fuel + 1, st =>
    if 8 ≤ st.totalBuffer.length then
      let packetLength := readLe16 st.totalBuffer 4
      if st.totalBuffer.length < 8 + packetLength then st
      else
        let rtb := st.realTotalBuffer ++ (st.totalBuffer.drop 16).take (8 + packetLength - 16)
        let tb := st.totalBuffer.drop (8 + packetLength)
        let expected := if 1 < st.packetsRemaining then MAX_CHUNK + 8 else remain + 8
        if expected ≤ rtb.length then
          processPacketsFuel remain fuel
            ⟨tb, [],
              if 8 < rtb.length then st.replyData ++ rtb.drop 8 else st.replyData,
              st.packetsRemaining - 1⟩
        else
          processPacketsFuel remain fuel ⟨tb, rtb, st.replyData, st.packetsRemaining⟩
    else st

def processPackets (remain : Nat) (st : TcpRecvState) : TcpRecvState :=
  processPacketsFuel remain st.totalBuffer.length st

/-- One iteration of the outer receive loop of tcp.rs `read_with_buffer`:
a chunk recognized by `check_not_event_tcp` is skipped (`continue`), any
other chunk is appended to `totalBuffer` and complete packets are processed. -/
def tcpRecvStep (remain : Nat) (st : TcpRecvState) (chunk : List Nat) : TcpRecvState :=
  if check_not_event_tcp chunk then st
  else processPackets remain { st with totalBuffer := st.totalBuffer ++ chunk }

/-- The outer receive loop of tcp.rs `read_with_buffer`, running while
`packets_remaining > 0`, consuming the incoming network chunks in order. -/
def tcpRecvLoop (remain : Nat) : TcpRecvState → List (List Nat) → TcpRecvState
  | st, [] => st
  | st, c :: rest =>
    if st.packetsRemaining = 0 then st
    else tcpRecvLoop remain (tcpRecvStep remain st c) rest

/-- udp.rs `read_with_buffer` receive-loop body: event datagrams and
datagrams shorter than 8 bytes are skipped, CMD_PREPARE_DATA contributes
nothing, CMD_DATA appends its payload, CMD_ACK_OK breaks once `size` bytes
have been gathered. Returns the new buffer and whether the loop breaks. -/
def udpRecvStep (size : Nat) (buf chunk : List Nat) : List Nat × Bool :=
  if check_not_event_udp chunk then (buf, false)
  else if chunk.length < 8 then (buf, false)
  else
    let command := readLe16 chunk 0
    if command = 1500 then (buf, false)
    else if command = 1501 then (buf ++ chunk.drop 8, false)
    else if command = 2000 then (buf, decide (size ≤ buf.length))
    else (buf, false)

/-- The `while total_buffer.len() < size` loop of udp.rs `read_with_buffer`. -/
def udpRecvLoop (size : Nat) : List Nat → List (List Nat) → List Nat
  | buf, [] => buf
  | buf, c :: rest =>
    if size ≤ buf.length then buf
    else
      match udpRecvStep size buf c with
      | (b, true) => b
      | (b, false) => udpRecvLoop size b rest

/-- **C7, counterexample input**: a TCP chunk whose inner command id is
CMD_REG_EVENT (500) but whose 16-bit field at inner offset 4 is 0, carrying
a 10-byte inner payload. -/
def eventChunkNoFlag : List Nat :=
  [0x50, 0x50, 0x82, 0x7d, 18, 0, 0, 0,
   244, 1, 0, 0, 0, 0, 0, 0,
   1, 2, 3, 4, 5, 6, 7, 8, 9, 10]

/-- **C7, counterexample.** A received TCP packet whose header command id is
CMD_REG_EVENT (500) is not always skipped: when its 16-bit field at inner
offset 4 is not 1, the receive step consumes a data slot (packetsRemaining
drops from 1 to 0) and contributes bytes to the assembled output. -/
theorem event_skip_counterexample :
    readLe16 (remove_tcp_header eventChunkNoFlag) 0 = 500 ∧
    (tcpRecvStep 2 ⟨[], [], [], 1⟩ eventChunkNoFlag).packetsRemaining = 0 ∧
    (tcpRecvStep 2 ⟨[], [], [], 1⟩ eventChunkNoFlag).replyData = [9, 10] := by
  decide

/-- **C7, amended.** During a streaming read, a received packet recognized as
a real-time event is skipped: it leaves the receive state untouched (no bytes
contributed, no data slot consumed) and reading continues. On UDP every
packet of at least 8 bytes whose command id is CMD_REG_EVENT (500) is
recognized; on TCP a packet is recognized only when its inner command id is
500 and the 16-bit field at inner offset 4 equals 1 (EF_ATTLOG). -/
theorem event_packets_skipped (remain size : Nat) (st : TcpRecvState)
    (buf chunk : List Nat) :
    (check_not_event_tcp chunk = true → tcpRecvStep remain st chunk = st) ∧
    (check_not_event_tcp chunk = true →
      readLe16 (remove_tcp_header chunk) 0 = 500 ∧
      readLe16 (remove_tcp_header chunk) 4 = 1) ∧
    (check_not_event_udp chunk = true → udpRecvStep size buf chunk = (buf, false)) ∧
    (8 ≤ chunk.length → readLe16 chunk 0 = 500 → check_not_event_udp chunk = true) := by
  refine ⟨fun h => by simp [tcpRecvStep, h], fun h => ?_, fun h => by simp [udpRecvStep, h],
    fun h1 h2 => ?_⟩
  · simp only [check_not_event_tcp] at h
    split at h
    · exact absurd h (by simp)
    · simp only [Bool.and_eq_true, beq_iff_eq] at h
      exact ⟨h.2, h.1⟩
  · simp only [check_not_event_udp]
    split
    · omega
    · simpa using h2

/-- Witness for C7's amended theorem at a concrete event packet. -/
theorem event_packets_skipped_witness :
    check_not_event_tcp [244, 1, 0, 0, 1, 0, 0, 0] = true ∧
    tcpRecvStep 0 ⟨[], [], [], 1⟩ [244, 1, 0, 0, 1, 0, 0, 0] = ⟨[], [], [], 1⟩ ∧
    udpRecvStep 5 [7] [244, 1, 0, 0, 1, 0, 0, 0] = ([7], false) :=
  ⟨by decide,
   (event_packets_skipped 0 5 ⟨[], [], [], 1⟩ [7] [244, 1, 0, 0, 1, 0, 0, 0]).1 (by decide),
   (event_packets_skipped 0 5 ⟨[], [], [], 1⟩ [7] [244, 1, 0, 0, 1, 0, 0, 0]).2.2.1 (by decide)⟩

/-- tcp.rs `connect`: after CMD_CONNECT succeeds, the session id is read from
bytes 4..6 of the inner reply when it is long enough, otherwise it stays 0. -/
def tcp_connect_session (reply : List Nat) : Nat :=
  let inner := remove_tcp_header reply
  if 6 ≤ inner.length then readLe16 inner 4 else 0

/-- tcp.rs `connect`, final phase: an exchange error propagates, any
successful CMD_CONNECT exchange yields `Ok` with the extracted session id. -/
def tcp_connect (execResult : Except String (List Nat)) : Except String Nat :=
  match execResult with
  | .error e => .error e
  | .ok reply => .ok (tcp_connect_session reply)

/-- udp.rs `connect`: session id from bytes 4..6 of the reply when present. -/
def udp_connect_session (reply : List Nat) : Nat :=
  if 6 ≤ reply.length then readLe16 reply 4 else 0

/-- udp.rs `connect`, final phase. -/
def udp_connect (execResult : Except String (List Nat)) : Except String Nat :=
  match execResult with
  | .error e => .error e
  | .ok reply => .ok (udp_connect_session reply)

/-- **C10.** If the reply to CMD_CONNECT is too short to carry a session id
(fewer than 6 bytes after envelope removal on TCP, or fewer than 6 bytes on
UDP), connect still returns success rather than an error, and the session
proceeds with session id 0. -/
theorem short_connect_reply_ok (rTcp rUdp : List Nat)
    (hTcp : (remove_tcp_header rTcp).length < 6) (hUdp : rUdp.length < 6) :
    tcp_connect (.ok rTcp) = .ok 0 ∧ udp_connect (.ok rUdp) = .ok 0 := by
  constructor
  · simp only [tcp_connect, tcp_connect_session]
    rw [if_neg (by omega)]
  · simp only [udp_connect, udp_connect_session]
    rw [if_neg (by omega)]

/-- Witness for C10 at concrete short replies. -/
theorem short_connect_reply_ok_witness :
    tcp_connect (.ok [1, 2, 3]) = .ok 0 ∧ udp_connect (.ok []) = .ok 0 :=
  short_connect_reply_ok [1, 2, 3] [] (by decide) (by decide)

/-- Model of Rust `str::parse::<u32>`: an optional leading `+`, then at least
one ASCII digit, and the value must fit in 32 bits; anything else is an error. -/
def parseU32 (s : String) : Option Nat :=
  let ds := match s.data with
            | '+' :: rest => rest
            | l => l
  if ds = [] then none
  else if ds.all (fun c => c.isDigit) then
    let v := ds.foldl (fun acc c => acc * 10 + (c.toNat - 48)) 0
    if v < 4294967296 then some v else none
  else none

/-- client.rs `connect`: the comm key is
`config.comm_key.as_deref().unwrap_or("0").parse().unwrap_or(0)`. -/
def commKeyValue (comm_key : Option String) : Nat :=
  (parseU32 (comm_key.getD "0")).getD 0

/-- protocol.rs `command_name`. -/
def command_name (cmd_id : Nat) : String :=
  if cmd_id = 2000 then "CMD_ACK_OK"
  else if cmd_id = 2001 then "CMD_ACK_ERROR"
  else if cmd_id = 2002 then "CMD_ACK_DATA"
  else if cmd_id = 2003 then "CMD_ACK_RETRY"
  else if cmd_id = 2004 then "CMD_ACK_REPEAT"
  else if cmd_id = 2005 then "CMD_ACK_UNAUTH"
  else if cmd_id = 0xFFFF then "CMD_ACK_UNKNOWN"
  else if cmd_id = 0xFFFD then "CMD_ACK_ERROR_CMD"
  else if cmd_id = 0xFFFC then "CMD_ACK_ERROR_INIT"
  else if cmd_id = 0xFFFB then "CMD_ACK_ERROR_DATA"
  else "UNKNOWN_COMMAND"

/-- The CMD_AUTH reply check shared by tcp.rs `auth` and udp.rs `auth`:
a reply of at least 2 bytes whose command id is CMD_ACK_OK succeeds,
anything else is an authentication failure. -/
def auth_result (replyInner : List Nat) : Except String Unit :=
  if 2 ≤ replyInner.length then
    if readLe16 replyInner 0 = 2000 then .ok ()
    else .error ("Device authentication failed (response: " ++
      command_name (readLe16 replyInner 0) ++ ")")
  else .error "Device authentication failed: empty response"

/-- tcp.rs `auth` applied to the raw reply (the envelope is stripped first). -/
def tcp_auth (reply : List Nat) : Except String Unit :=
  auth_result (remove_tcp_header reply)

/-- Observable client actions in the auth phase of client.rs `connect`. -/
inductive ClientEvent where
  | authSent
  | tornDown
deriving DecidableEq

/-- The auth phase of client.rs `connect`, identical in the TCP and UDP
branches: after the transport connects, CMD_AUTH is issued only when the
parsed comm key is nonzero; a failed auth tears the transport down and
returns an authentication-failure error. -/
def connect_auth_tcp (comm_key : Option String) (authReplyBytes : List Nat) :
    List ClientEvent × Except String Unit :=
  if 0 < commKeyValue comm_key then
    match tcp_auth authReplyBytes with
    | .ok _ => ([.authSent], .ok ())
    | .error e => ([.authSent, .tornDown], .error ("Device authentication failed: " ++ e))
  else ([], .ok ())

/-- **C8.** `ZKClient::connect` issues CMD_AUTH if and only if the configured
comm key parses to a nonzero unsigned 32-bit value: an absent, empty, or
unparsable comm key is treated as 0 and no CMD_AUTH is sent; when the key is
nonzero and the CMD_AUTH reply's command id is not CMD_ACK_OK, the transport
is torn down and connect returns an authentication-failure error. -/
theorem auth_iff_nonzero_key (comm_key : Option String) (reply : List Nat) :
    (ClientEvent.authSent ∈ (connect_auth_tcp comm_key reply).1 ↔
      0 < commKeyValue comm_key) ∧
    (comm_key = none → commKeyValue comm_key = 0) ∧
    (comm_key = some "" → commKeyValue comm_key = 0) ∧
    (∀ s, comm_key = some s → parseU32 s = none → commKeyValue comm_key = 0) ∧
    (0 < commKeyValue comm_key → readLe16 (remove_tcp_header reply) 0 ≠ 2000 →
      ClientEvent.tornDown ∈ (connect_auth_tcp comm_key reply).1 ∧
      ∃ msg, (connect_auth_tcp comm_key reply).2 =
        .error ("Device authentication failed: " ++ msg)) := by
  refine ⟨?_, fun h => by subst h; decide, fun h => by subst h; decide,
    fun s hs hp => by subst hs; simp [commKeyValue, hp], fun hk hcmd => ?_⟩
  · by_cases hk : 0 < commKeyValue comm_key
    · cases h : tcp_auth reply <;> simp [connect_auth_tcp, hk, h]
    · simp [connect_auth_tcp, hk]
  · have herr : ∃ e, tcp_auth reply = .error e := by
      unfold tcp_auth auth_result
      by_cases h1 : 2 ≤ (remove_tcp_header reply).length
      · rw [if_pos h1, if_neg hcmd]
        exact ⟨_, rfl⟩
      · rw [if_neg h1]
        exact ⟨_, rfl⟩
    obtain ⟨e, he⟩ := herr
    refine ⟨by simp [connect_auth_tcp, hk, he], e, by simp [connect_auth_tcp, hk, he]⟩

/-- Witness for C8: comm key "123" is nonzero, and a CMD_ACK_ERROR (2001)
reply to CMD_AUTH sends auth and tears the transport down. -/
theorem auth_iff_nonzero_key_witness :
    ClientEvent.authSent ∈ (connect_auth_tcp (some "123") [209, 7]).1 ∧
    ClientEvent.tornDown ∈ (connect_auth_tcp (some "123") [209, 7]).1 :=
  ⟨(auth_iff_nonzero_key (some "123") [209, 7]).1.mpr (by decide),
   ((auth_iff_nonzero_key (some "123") [209, 7]).2.2.2.2 (by decide) (by decide)).1⟩

/-- types.rs `SyncOptions`. -/
structure SyncOptions where
  mode : String
  start_date : Option String
  end_date : Option String
deriving DecidableEq

/-- types.rs `AttendanceLog` (verify/punch types kept as `Nat`, always < 256). -/
structure AttendanceLog where
  device_user_id : String
  timestamp : String
  verify_type : Nat
  punch_type : Nat
deriving DecidableEq

/-- The mapping from a raw transport record to an `AttendanceLog` in
client.rs `get_attendance_logs`. -/
def toAttendanceLog : String × String × Nat × Nat → AttendanceLog
  | (u, t, v, p) => ⟨u, t, v, p⟩

/-- Lexicographic order on char lists, modelling Rust's `Ord` for `String`
(UTF-8 byte order coincides with code-point order). -/
def charListLe : List Char → List Char → Bool
  | [], _ => true
  | _ :: _, [] => false
  | a :: as, b :: bs =>
    if a.toNat < b.toNat then true
    else if b.toNat < a.toNat then false
    else charListLe as bs

/-- Rust `<=` on `String`. -/
def strLe (s t : String) : Bool := charListLe s.data t.data

/-- client.rs `get_attendance_logs`, post-fetch phase: the transport's raw
records become `AttendanceLog`s, then the optional date-range filter is
applied exactly as in the source (mode "range" with both bounds present;
a bound without a 'T' is coerced to a full-day bound; retention is by
lexicographic string comparison). -/
def get_attendance_logs (raw : List (String × String × Nat × Nat))
    (options : Option SyncOptions) : List AttendanceLog :=
  let logs := raw.map toAttendanceLog
  match options with
  | some opts =>
    if opts.mode = "range" then
      match opts.start_date, opts.end_date with
      | some start, some stop =>
        let start_str := if start.data.contains 'T' then start else start ++ "T00:00:00"
        let end_str := if stop.data.contains 'T' then stop else stop ++ "T23:59:59"
        logs.filter fun log => strLe start_str log.timestamp && strLe log.timestamp end_str
      | _, _ => logs
    else logs
  | none => logs

/-- **C6.** With mode "range" and both bounds present, a bound lacking a 'T'
is coerced by appending `T00:00:00` to the start and `T23:59:59` to the end,
and the result is exactly the fetched logs whose timestamp lies within the
normalized bounds under lexicographic comparison (so every returned log lies
within the bounds); with any other mode or a missing bound the fetched logs
are returned unfiltered. -/
theorem range_filter_correct (raw : List (String × String × Nat × Nat))
    (opts : SyncOptions) (start stop : String)
    (hm : opts.mode = "range") (hs : opts.start_date = some start)
    (he : opts.end_date = some stop) :
    (get_attendance_logs raw (some opts) =
      (raw.map toAttendanceLog).filter fun log =>
        strLe (if start.data.contains 'T' then start else start ++ "T00:00:00") log.timestamp &&
          strLe log.timestamp (if stop.data.contains 'T' then stop else stop ++ "T23:59:59")) ∧
    (∀ log ∈ get_attendance_logs raw (some opts),
      strLe (if start.data.contains 'T' then start else start ++ "T00:00:00")
          log.timestamp = true ∧
      strLe log.timestamp
          (if stop.data.contains 'T' then stop else stop ++ "T23:59:59") = true) ∧
    (∀ opts2 : SyncOptions, opts2.mode ≠ "range" →
      get_attendance_logs raw (some opts2) = raw.map toAttendanceLog) ∧
    (∀ opts2 : SyncOptions, opts2.start_date = none →
      get_attendance_logs raw (some opts2) = raw.map toAttendanceLog) ∧
    (∀ opts2 : SyncOptions, opts2.end_date = none →
      get_attendance_logs raw (some opts2) = raw.map toAttendanceLog) ∧
    get_attendance_logs raw none = raw.map toAttendanceLog := by
  refine ⟨by simp [get_attendance_logs, hm, hs, he], fun log hlog => ?_, fun o2 h2 => ?_,
    fun o2 h2 => ?_, fun o2 h2 => ?_, rfl⟩
  · simp only [get_attendance_logs, hm, hs, he, if_pos] at hlog
    rw [List.mem_filter] at hlog
    exact ⟨(Bool.and_eq_true _ _ ▸ hlog.2).1, (Bool.and_eq_true _ _ ▸ hlog.2).2⟩
  · simp [get_attendance_logs, h2]
  · simp only [get_attendance_logs, h2]
    split
    · rfl
    · rfl
  · simp only [get_attendance_logs, h2]
    split
    · cases h3 : o2.start_date <;> rfl
    · rfl

/-- Witness for C6, the spec's concrete scenario: with range
2024-01-15..2024-01-15, the log on the 15th is retained and the logs on the
14th and 16th are dropped. -/
theorem range_filter_correct_witness :
    get_attendance_logs
      [("1", "2024-01-15T09:00:00.000Z", 1, 0),
       ("2", "2024-01-14T23:59:59.999Z", 1, 0),
       ("3", "2024-01-16T00:00:00.000Z", 1, 0)]
      (some ⟨"range", some "2024-01-15", some "2024-01-15"⟩) =
      [⟨"1", "2024-01-15T09:00:00.000Z", 1, 0⟩] :=
  ((range_filter_correct
      [("1", "2024-01-15T09:00:00.000Z", 1, 0),
       ("2", "2024-01-14T23:59:59.999Z", 1, 0),
       ("3", "2024-01-16T00:00:00.000Z", 1, 0)]
      ⟨"range", some "2024-01-15", some "2024-01-15"⟩
      "2024-01-15" "2024-01-15" rfl rfl rfl).1).trans (by decide)

/-- types.rs `DeviceUser`. -/
structure DeviceUser where
  device_user_id : String
  device_name : String
deriving DecidableEq

/-- types.rs `SyncAllResult`. -/
structure SyncAllResult where
  users : List DeviceUser
  logs : List AttendanceLog
deriving DecidableEq

/-- Observable steps of client.rs `sync_all`. -/
inductive SyncEvent where
  | connectDevice
  | fetchUsers
  | disconnectDevice
  | sleep (ms : Nat)
  | fetchLogs
deriving DecidableEq

/-- Outcome of one reconnect-and-fetch-logs attempt inside `sync_all`:
the reconnect itself may fail, the log fetch may fail (after which the
client disconnects), or the fetch succeeds. -/
inductive AttemptOutcome where
  | connectFail (e : String)
  | fetchFail (e : String)
  | fetchOk (logs : List AttendanceLog)
deriving DecidableEq

def attemptFailed : AttemptOutcome → Bool
  | .fetchOk _ => false
  | _ => true

def attemptErr : AttemptOutcome → String
  | .connectFail e => e
  | .fetchFail e => e
  | .fetchOk _ => ""

/-- The `for attempt in 0..3` retry loop of client.rs `sync_all`: sleep
`500 + attempt*500` ms, reconnect and fetch; a success disconnects, clears
the error and breaks; a failure records the error and continues. Returns the
event trace, the final `last_err`, and the fetched logs. -/
def syncLogsLoop : Nat → List AttemptOutcome → String →
    List SyncEvent × String × List AttendanceLog
  | _, [], lastErr => ([], lastErr, [])
  | idx, a :: rest, _ =>
    let delay := 500 + idx * 500
    match a with
    | .connectFail e =>
      let r := syncLogsLoop (idx + 1) rest e
      (SyncEvent.sleep delay :: SyncEvent.connectDevice :: r.1, r.2)
    | .fetchFail e =>
      let r := syncLogsLoop (idx + 1) rest e
      (SyncEvent.sleep delay :: SyncEvent.connectDevice :: SyncEvent.fetchLogs ::
        SyncEvent.disconnectDevice :: r.1, r.2)
    | .fetchOk logs =>
      ([SyncEvent.sleep delay, SyncEvent.connectDevice, SyncEvent.fetchLogs,
        SyncEvent.disconnectDevice], "", logs)

/-- client.rs `sync_all` after a successful connect-and-get-users phase:
disconnect, run the retry loop, and surface a "Got N users" error when the
last error is nonempty and no logs were obtained. -/
def sync_all (users : List DeviceUser) (attempts : List AttemptOutcome) :
    List SyncEvent × Except String SyncAllResult :=
  let r := syncLogsLoop 0 attempts ""
  let trace := SyncEvent.connectDevice :: SyncEvent.fetchUsers ::
    SyncEvent.disconnectDevice :: r.1
  if r.2.1 ≠ "" ∧ r.2.2 = [] then
    (trace, .error ("Got " ++ toString users.length ++
      " users but failed to fetch attendance logs: " ++ r.2.1))
  else (trace, .ok ⟨users, r.2.2⟩)

/-- The sleep durations performed during a trace. -/
def sleepsOf (trace : List SyncEvent) : List Nat :=
  trace.filterMap fun e => match e with
    | SyncEvent.sleep d => some d
    | _ => none

/-- **C9.** `sync_all` connects and fetches users, disconnects, then retries
the reconnect-and-fetch-logs sequence up to 3 times with delays of 500 ms,
1000 ms and 1500 ms before the attempts (a success stops the retrying); if
the users fetch succeeded but every log attempt failed, it returns an error
whose text contains "Got N users" with N the number of users obtained. -/
theorem sync_all_retry (users : List DeviceUser) (a0 a1 a2 : AttemptOutcome)
    (h0 : attemptFailed a0 = true) (h1 : attemptFailed a1 = true)
    (h2 : attemptFailed a2 = true) (he : attemptErr a2 ≠ "") :
    ((sync_all users [a0, a1, a2]).1.take 3 =
      [SyncEvent.connectDevice, SyncEvent.fetchUsers, SyncEvent.disconnectDevice]) ∧
    sleepsOf (sync_all users [a0, a1, a2]).1 = [500, 1000, 1500] ∧
    (sync_all users [a0, a1, a2]).2 =
      .error ("Got " ++ toString users.length ++
        " users but failed to fetch attendance logs: " ++ attemptErr a2) ∧
    (∀ lgs, (sync_all users (AttemptOutcome.fetchOk lgs :: [a1, a2])).2 =
        .ok ⟨users, lgs⟩ ∧
      sleepsOf (sync_all users (AttemptOutcome.fetchOk lgs :: [a1, a2])).1 = [500]) := by
  refine ⟨?_, ?_, ?_, fun lgs => ⟨?_, ?_⟩⟩ <;>
    cases a0 <;> cases a1 <;> cases a2 <;>
      simp_all [sync_all, syncLogsLoop, sleepsOf, attemptFailed, attemptErr]

/-- Witness for C9 at one user and three failed attempts. -/
theorem sync_all_retry_witness :
    attemptErr (AttemptOutcome.connectFail "boom") ≠ "" ∧
    (sync_all [⟨"1", "User 1"⟩]
        [AttemptOutcome.connectFail "boom", AttemptOutcome.connectFail "boom",
         AttemptOutcome.connectFail "boom"]).2 =
      .error ("Got " ++ toString ([(⟨"1", "User 1"⟩ : DeviceUser)]).length ++
        " users but failed to fetch attendance logs: " ++
        attemptErr (AttemptOutcome.connectFail "boom")) :=
  ⟨by decide,
   (sync_all_retry [⟨"1", "User 1"⟩] (AttemptOutcome.connectFail "boom")
      (AttemptOutcome.connectFail "boom") (AttemptOutcome.connectFail "boom")
      rfl rfl rfl (by decide)).2.2.1⟩

/-- Proleptic-Gregorian leap-year rule, as implemented by the chrono crate. -/
def isLeapYear (y : Nat) : Bool := decide ((y % 4 = 0 ∧ y % 100 ≠ 0) ∨ y % 400 = 0)

/-- Month lengths of the proleptic Gregorian calendar (chrono's calendar). -/
def daysInMonth (y m : Nat) : Nat :=
  if m = 2 then (if isLeapYear y then 29 else 28)
  else if m = 4 ∨ m = 6 ∨ m = 9 ∨ m = 11 then 30
  else 31

/-- Validity test of `chrono::NaiveDate::from_ymd_opt` (chrono's year range
is ignored: `parse_zk_time` only produces years 2000..2133, well inside it). -/
def fromYmdValid (y m d : Nat) : Bool :=
  decide (1 ≤ m ∧ m ≤ 12 ∧ 1 ≤ d ∧ d ≤ daysInMonth y m)

/-- Validity test of `chrono::NaiveDate::and_hms_opt`. -/
def hmsValid (h mi s : Nat) : Bool := decide (h ≤ 23 ∧ mi ≤ 59 ∧ s ≤ 59)

/-- The decimal digit character for `n % 10`. -/
def digitChar (n : Nat) : Char :=
  match n % 10 with
  | 0 => '0' | 1 => '1' | 2 => '2' | 3 => '3' | 4 => '4'
  | 5 => '5' | 6 => '6' | 7 => '7' | 8 => '8' | _ => '9'

/-- chrono's `%m`/`%d`/`%H`/`%M`/`%S`: two digits, zero padded
(all fields produced here are below 100). -/
def pad2 (n : Nat) : List Char := [digitChar (n / 10), digitChar n]

/-- chrono's `%Y`: four digits, zero padded (years here are below 10000). -/
def pad4 (n : Nat) : List Char :=
  [digitChar (n / 1000), digitChar (n / 100), digitChar (n / 10), digitChar n]

/-- The string chrono renders for format `%Y-%m-%dT%H:%M:%S%.3fZ` with zero
nanoseconds. -/
def isoFormat (y mo d h mi s : Nat) : String :=
  String.mk (pad4 y ++ '-' :: pad2 mo ++ '-' :: pad2 d ++ 'T' :: pad2 h ++
    ':' :: pad2 mi ++ ':' :: pad2 s ++ ['.', '0', '0', '0', 'Z'])

/-- `.pred().day()` applied to the first day of month `m` of year `y`:
the fallback path of `parse_zk_time` computes the previous month's last day
this way (for `m = 1` chrono yields December 31 of the previous year). -/
def predOfFirstDay (y m : Nat) : Nat :=
  if m = 1 then 31 else daysInMonth y (m - 1)

/-- protocol.rs `parse_zk_time`: successive-division decoding of the packed
32-bit timestamp, formatted directly when chrono accepts the date, otherwise
re-formatted with the day clamped to the previous month boundary and the
time fields clamped to their caps. -/
def parse_zk_time (time : Nat) : String :=
  let second := time % 60
  let t1 := time / 60
  let minute := t1 % 60
  let t2 := t1 / 60
  let hour := t2 % 24
  let t3 := t2 / 24
  let day := t3 % 31 + 1
  let t4 := t3 / 31
  let month := t4 % 12 + 1
  let t5 := t4 / 12
  let year := t5 + 2000
  if fromYmdValid year month day && hmsValid hour minute second then
    isoFormat year month day hour minute second
  else
    let lastDay := predOfFirstDay year (if month < 12 then month + 1 else 1)
    let clampedDay := min day lastDay
    isoFormat year month clampedDay (min hour 23) (min minute 59) (min second 59)

/-- The decoded fields of a packed timestamp, written with the divisions
composed. -/
def zkSecond (t : Nat) : Nat := t % 60
def zkMinute (t : Nat) : Nat := t / 60 % 60
def zkHour (t : Nat) : Nat := t / 60 / 60 % 24
def zkDay (t : Nat) : Nat := t / 60 / 60 / 24 % 31 + 1
def zkMonth (t : Nat) : Nat := t / 60 / 60 / 24 / 31 % 12 + 1
def zkYear (t : Nat) : Nat := t / 60 / 60 / 24 / 31 / 12 + 2000
def zkClampedDay (t : Nat) : Nat := min (zkDay t) (daysInMonth (zkYear t) (zkMonth t))

/-- Shape check for `YYYY-MM-DDTHH:MM:SS.000Z`. -/
def isIsoShape (s : String) : Bool :=
  match s.data with
  | [y1, y2, y3, y4, ha, mo1, mo2, hb, d1, d2, tc, hh1, hh2, c1, mi1, mi2, c2,
     s1, s2, dot, za, zb, zc, zz] =>
    y1.isDigit && y2.isDigit && y3.isDigit && y4.isDigit && ha == '-' &&
    mo1.isDigit && mo2.isDigit && hb == '-' && d1.isDigit && d2.isDigit &&
    tc == 'T' && hh1.isDigit && hh2.isDigit && c1 == ':' && mi1.isDigit &&
    mi2.isDigit && c2 == ':' && s1.isDigit && s2.isDigit && dot == '.' &&
    za == '0' && zb == '0' && zc == '0' && zz == 'Z'
  | _ => false

/-- A valid calendar date-time of the (proleptic Gregorian) UTC calendar. -/
def validDateTime (y mo d h mi s : Nat) : Prop :=
  1 ≤ mo ∧ mo ≤ 12 ∧ 1 ≤ d ∧ d ≤ daysInMonth y mo ∧ h ≤ 23 ∧ mi ≤ 59 ∧ s ≤ 59

theorem digitChar_isDigit (n : Nat) : (digitChar n).isDigit = true := by
  unfold digitChar
  have h : n % 10 < 10 := Nat.mod_lt _ (by decide)
  generalize n % 10 = k at h ⊢
  interval_cases k <;> decide

theorem daysInMonth_bounds (y m : Nat) :
    28 ≤ daysInMonth y m ∧ daysInMonth y m ≤ 31 := by
  unfold daysInMonth
  split_ifs <;> simp

theorem daysInMonth_twelve (y : Nat) : daysInMonth y 12 = 31 := by
  simp [daysInMonth]

theorem isoFormat_shape (y mo d h mi s : Nat) :
    isIsoShape (isoFormat y mo d h mi s) = true := by
  simp [isIsoShape, isoFormat, pad4, pad2, digitChar_isDigit]

theorem isoFormat_length (y mo d h mi s : Nat) :
    (isoFormat y mo d h mi s).length = 24 := by
  simp [isoFormat, pad4, pad2, String.length]

/-- **C4.** For every 32-bit packed timestamp, `parse_zk_time` returns a
string of the exact shape `YYYY-MM-DDTHH:MM:SS.000Z` (24 characters, digits
and separators in place) denoting a valid UTC calendar date-time with year
at least 2000 (and at most 2133), whose fields come from the
successive-division decoding, with a day exceeding the month's length
clamped to the last valid day of that month. -/
theorem parse_zk_time_correct (t : Nat) (ht : t < 4294967296) :
    parse_zk_time t =
      isoFormat (zkYear t) (zkMonth t) (zkClampedDay t)
        (zkHour t) (zkMinute t) (zkSecond t) ∧
    2000 ≤ zkYear t ∧ zkYear t ≤ 2133 ∧
    validDateTime (zkYear t) (zkMonth t) (zkClampedDay t)
      (zkHour t) (zkMinute t) (zkSecond t) ∧
    isIsoShape (parse_zk_time t) = true ∧
    (parse_zk_time t).length = 24 ∧
    (daysInMonth (zkYear t) (zkMonth t) < zkDay t →
      zkClampedDay t = daysInMonth (zkYear t) (zkMonth t)) := by
  have hsec : zkSecond t ≤ 59 := by
    have := Nat.mod_lt t (show 0 < 60 by decide)
    simpa [zkSecond] using Nat.lt_succ_iff.mp (by omega)
  have hmin : zkMinute t ≤ 59 := by
    have := Nat.mod_lt (t / 60) (show 0 < 60 by decide)
    simp only [zkMinute]
    omega
  have hhour : zkHour t ≤ 23 := by
    have := Nat.mod_lt (t / 60 / 60) (show 0 < 24 by decide)
    simp only [zkHour]
    omega
  have hday1 : 1 ≤ zkDay t := by simp [zkDay]
  have hday31 : zkDay t ≤ 31 := by
    have := Nat.mod_lt (t / 60 / 60 / 24) (show 0 < 31 by decide)
    simp only [zkDay]
    omega
  have hmo1 : 1 ≤ zkMonth t := by simp [zkMonth]
  have hmo12 : zkMonth t ≤ 12 := by
    have := Nat.mod_lt (t / 60 / 60 / 24 / 31) (show 0 < 12 by decide)
    simp only [zkMonth]
    omega
  have hy5 : t / 60 / 60 / 24 / 31 / 12 = t / 32140800 := by
    rw [Nat.div_div_eq_div_mul, Nat.div_div_eq_div_mul, Nat.div_div_eq_div_mul,
      Nat.div_div_eq_div_mul]
  have hylo : 2000 ≤ zkYear t := by simp [zkYear]
  have hyhi : zkYear t ≤ 2133 := by
    have h134 : t / 32140800 < 134 :=
      (Nat.div_lt_iff_lt_mul (show 0 < 32140800 by decide)).mpr (by omega)
    simp only [zkYear, hy5]
    omega
  have hdim := daysInMonth_bounds (zkYear t) (zkMonth t)
  have hclamp1 : 1 ≤ zkClampedDay t := by
    simp only [zkClampedDay]
    omega
  have hclampd : zkClampedDay t ≤ daysInMonth (zkYear t) (zkMonth t) := by
    simp only [zkClampedDay]
    omega
  have hhms : hmsValid (zkHour t) (zkMinute t) (zkSecond t) = true := by
    simp only [hmsValid, decide_eq_true_eq]
    exact ⟨hhour, hmin, hsec⟩
  have hmain : parse_zk_time t =
      isoFormat (zkYear t) (zkMonth t) (zkClampedDay t)
        (zkHour t) (zkMinute t) (zkSecond t) := by
    have hstep : parse_zk_time t =
        (if fromYmdValid (zkYear t) (zkMonth t) (zkDay t) &&
            hmsValid (zkHour t) (zkMinute t) (zkSecond t) then
          isoFormat (zkYear t) (zkMonth t) (zkDay t) (zkHour t) (zkMinute t) (zkSecond t)
        else
          isoFormat (zkYear t) (zkMonth t)
            (min (zkDay t)
              (predOfFirstDay (zkYear t) (if zkMonth t < 12 then zkMonth t + 1 else 1)))
            (min (zkHour t) 23) (min (zkMinute t) 59) (min (zkSecond t) 59)) := rfl
    rw [hstep, hhms, Bool.and_true]
    by_cases hvalid : fromYmdValid (zkYear t) (zkMonth t) (zkDay t) = true
    · rw [if_pos hvalid]
      have hle : zkDay t ≤ daysInMonth (zkYear t) (zkMonth t) :=
        (of_decide_eq_true hvalid).2.2.2
      unfold zkClampedDay
      rw [Nat.min_eq_left hle]
    · rw [if_neg hvalid]
      have hgt : daysInMonth (zkYear t) (zkMonth t) < zkDay t := by
        by_contra hle
        exact hvalid (by
          simp only [fromYmdValid, decide_eq_true_eq]
          exact ⟨hmo1, hmo12, hday1, by omega⟩)
      have hmo_ne : zkMonth t ≠ 12 := by
        intro h12
        rw [h12, daysInMonth_twelve] at hgt
        omega
      have hmo_lt : zkMonth t < 12 := by omega
      rw [if_pos hmo_lt]
      have hpred : predOfFirstDay (zkYear t) (zkMonth t + 1) =
          daysInMonth (zkYear t) (zkMonth t) := by
        unfold predOfFirstDay
        rw [if_neg (by omega)]
        simp
      rw [hpred, Nat.min_eq_left hhour, Nat.min_eq_left hmin, Nat.min_eq_left hsec]
      rfl
  refine ⟨hmain, hylo, hyhi, ⟨hmo1, hmo12, hclamp1, hclampd, hhour, hmin, hsec⟩, ?_, ?_, ?_⟩
  · rw [hmain]
    exact isoFormat_shape _ _ _ _ _ _
  · rw [hmain]
    exact isoFormat_length _ _ _ _ _ _
  · intro hlt
    simp only [zkClampedDay]
    omega

/-- Witness for C4 at the packed timestamp 0 (decodes to 2000-01-01). -/
theorem parse_zk_time_correct_witness :
    parse_zk_time 0 = "2000-01-01T00:00:00.000Z" ∧
    parse_zk_time 0 =
      isoFormat (zkYear 0) (zkMonth 0) (zkClampedDay 0)
        (zkHour 0) (zkMinute 0) (zkSecond 0) :=
  ⟨by decide, (parse_zk_time_correct 0 (by decide)).1⟩

/-- Chunk count of tcp.rs / udp.rs `read_with_buffer`:
`(size + MAX_CHUNK - 1) / MAX_CHUNK` (ceiling division). -/
def totalPackets (size : Nat) : Nat := (size + MAX_CHUNK - 1) / MAX_CHUNK

/-- Requested length of chunk `i`: `remain` for the last chunk when
`remain = size % MAX_CHUNK` is nonzero, `MAX_CHUNK` otherwise. -/
def chunkLen (size i : Nat) : Nat :=
  if i = totalPackets size - 1 ∧ 0 < size % MAX_CHUNK then size % MAX_CHUNK else MAX_CHUNK

/-- The 8-byte payload of chunk request `i`: little-endian start offset
`i * MAX_CHUNK` followed by the little-endian chunk length. -/
def chunkPayload (size i : Nat) : List Nat := le32 (i * MAX_CHUNK) ++ le32 (chunkLen size i)

/-- The CMD_DATA_RDY (1504) requests pre-built by tcp.rs `read_with_buffer`;
`reply_id` is the local counter value after the initial CMD_DATA_WRRQ
increment, and `build_chunk_request` increments it once more per chunk. -/
def chunkRequestsTcp (session_id reply_id size : Nat) : List (List Nat) :=
  (List.range (totalPackets size)).map fun i =>
    create_tcp_header 1504 session_id ((reply_id + 1 + i) % 65536) (chunkPayload size i)

/-- The CMD_DATA_RDY requests pre-built by udp.rs `read_with_buffer`. -/
def chunkRequestsUdp (session_id reply_id size : Nat) : List (List Nat) :=
  (List.range (totalPackets size)).map fun i =>
    create_udp_header 1504 session_id ((reply_id + 1 + i) % 65536) (chunkPayload size i)

/-- Initial state of the TCP chunk receive loop. -/
def initTcpState (size : Nat) : TcpRecvState := ⟨[], [], [], totalPackets size⟩

/-- The assembled output of the TCP chunk phase on a given incoming stream. -/
def readResultTcp (size : Nat) (incoming : List (List Nat)) : List Nat :=
  (tcpRecvLoop (size % MAX_CHUNK) (initTcpState size) incoming).replyData

/-- The assembled output of the UDP chunk phase on a given incoming stream. -/
def readResultUdp (size : Nat) (incoming : List (List Nat)) : List Nat :=
  udpRecvLoop size [] incoming

/-- Socket operations performed during the chunk phase. -/
inductive IOEvent where
  | send (packet : List Nat)
  | recv (chunk : List Nat)
deriving DecidableEq

/-- Receive events of the TCP chunk loop: one `recv` per incoming network
chunk consumed while packets remain. -/
def recvEventsTcp (remain : Nat) : TcpRecvState → List (List Nat) → List IOEvent
  | _, [] => []
  | st, c :: rest =>
    if st.packetsRemaining = 0 then []
    else IOEvent.recv c :: recvEventsTcp remain (tcpRecvStep remain st c) rest

/-- Receive events of the UDP chunk loop. -/
def recvEventsUdp (size : Nat) : List Nat → List (List Nat) → List IOEvent
  | _, [] => []
  | buf, c :: rest =>
    if size ≤ buf.length then []
    else if (udpRecvStep size buf c).2 then [IOEvent.recv c]
    else IOEvent.recv c :: recvEventsUdp size (udpRecvStep size buf c).1 rest

/-- Socket-operation trace of the TCP chunk phase: all chunk requests are
written before the receive loop starts (the code sends them in one loop,
then enters the receive loop). -/
def readTraceTcp (session_id reply_id size : Nat) (incoming : List (List Nat)) :
    List IOEvent :=
  (chunkRequestsTcp session_id reply_id size).map IOEvent.send ++
    recvEventsTcp (size % MAX_CHUNK) (initTcpState size) incoming

/-- Socket-operation trace of the UDP chunk phase. -/
def readTraceUdp (session_id reply_id size : Nat) (incoming : List (List Nat)) :
    List IOEvent :=
  (chunkRequestsUdp session_id reply_id size).map IOEvent.send ++
    recvEventsUdp size [] incoming

theorem recvEventsTcp_all_recv (remain : Nat) :
    ∀ (st : TcpRecvState) (incoming : List (List Nat)) (e : IOEvent),
      e ∈ recvEventsTcp remain st incoming → ∃ c, e = IOEvent.recv c
  | _, [], e, h => by simp [recvEventsTcp] at h
  | st, c :: rest, e, h => by
    simp only [recvEventsTcp] at h
    split at h
    · simp at h
    · rcases List.mem_cons.mp h with h1 | h2
      · exact ⟨c, h1⟩
      · exact recvEventsTcp_all_recv remain _ rest e h2

theorem recvEventsUdp_all_recv (size : Nat) :
    ∀ (buf : List Nat) (incoming : List (List Nat)) (e : IOEvent),
      e ∈ recvEventsUdp size buf incoming → ∃ c, e = IOEvent.recv c
  | _, [], e, h => by simp [recvEventsUdp] at h
  | buf, c :: rest, e, h => by
    simp only [recvEventsUdp] at h
    split at h
    · simp at h
    · split at h
      · simp at h
        exact ⟨c, h⟩
      · rcases List.mem_cons.mp h with h1 | h2
        · exact ⟨c, h1⟩
        · exact recvEventsUdp_all_recv size _ rest e h2

/-- In a trace of the form `sends ++ tail` where the tail holds only
receive events, every send index precedes every receive index. -/
theorem sends_before_recvs (reqs : List (List Nat)) (tail : List IOEvent)
    (htail : ∀ e ∈ tail, ∃ c, e = IOEvent.recv c)
    (k1 k2 : Nat) (p c : List Nat)
    (h1 : (reqs.map IOEvent.send ++ tail).get? k1 = some (IOEvent.send p))
    (h2 : (reqs.map IOEvent.send ++ tail).get? k2 = some (IOEvent.recv c)) :
    k1 < k2 := by
  have hlen : (reqs.map IOEvent.send).length = reqs.length := List.length_map _ _
  have hk1 : k1 < reqs.length := by
    by_contra hge
    have hge2 : (reqs.map IOEvent.send).length ≤ k1 := by omega
    rw [List.get?_append_right hge2] at h1
    obtain ⟨c2, hc2⟩ := htail _ (List.get?_mem h1)
    exact IOEvent.noConfusion hc2
  have hk2 : ¬ k2 < reqs.length := by
    intro hlt
    have hlt2 : k2 < (reqs.map IOEvent.send).length := by omega
    rw [List.get?_append hlt2, List.get?_map] at h2
    cases hq : reqs.get? k2 with
    | none => rw [hq] at h2; simp at h2
    | some q => rw [hq] at h2; simp at h2
  omega

/-- **C5.** In the streaming read on both transports, for every declared
size: the chunk count is the ceiling of `size / 65472` and `remain` is
`size mod 65472`; chunk request `i` is a CMD_DATA_RDY packet whose 8-byte
payload is start `i * 65472` and length `65472` except the last chunk,
which uses `remain` when `remain` is nonzero; each request carries the next
incremented reply id; every chunk request is transmitted before any chunk
reply is read; and size 0 sends no chunk requests and yields an empty
result. -/
theorem chunked_read_correct (session_id reply_id size : Nat)
    (incoming : List (List Nat)) :
    totalPackets size = (size + MAX_CHUNK - 1) / MAX_CHUNK ∧
    (size = 0 → totalPackets size = 0) ∧
    (0 < size →
      MAX_CHUNK * (totalPackets size - 1) < size ∧ size ≤ MAX_CHUNK * totalPackets size) ∧
    (chunkRequestsTcp session_id reply_id size).length = totalPackets size ∧
    (chunkRequestsUdp session_id reply_id size).length = totalPackets size ∧
    (∀ i pkt, (chunkRequestsTcp session_id reply_id size).get? i = some pkt →
      readLe16 (pkt.drop 8) 0 = 1504 ∧
      pkt.drop 16 = le32 (i * MAX_CHUNK) ++ le32 (chunkLen size i) ∧
      readLe16 (pkt.drop 8) 6 = wireReply ((reply_id + 1 + i) % 65536)) ∧
    (∀ i pkt, (chunkRequestsUdp session_id reply_id size).get? i = some pkt →
      readLe16 pkt 0 = 1504 ∧
      pkt.drop 8 = le32 (i * MAX_CHUNK) ++ le32 (chunkLen size i) ∧
      readLe16 pkt 6 = wireReply ((reply_id + 1 + i) % 65536)) ∧
    (∀ i, i + 1 < totalPackets size → chunkLen size i = MAX_CHUNK) ∧
    (0 < size % MAX_CHUNK → chunkLen size (totalPackets size - 1) = size % MAX_CHUNK) ∧
    (size % MAX_CHUNK = 0 → ∀ i, chunkLen size i = MAX_CHUNK) ∧
    (∀ i, ((reply_id + 1 + i) % 65536 + 1) % 65536 = (reply_id + 1 + (i + 1)) % 65536) ∧
    (∀ k1 k2 p c,
      (readTraceTcp session_id reply_id size incoming).get? k1 = some (IOEvent.send p) →
      (readTraceTcp session_id reply_id size incoming).get? k2 = some (IOEvent.recv c) →
      k1 < k2) ∧
    (∀ k1 k2 p c,
      (readTraceUdp session_id reply_id size incoming).get? k1 = some (IOEvent.send p) →
      (readTraceUdp session_id reply_id size incoming).get? k2 = some (IOEvent.recv c) →
      k1 < k2) ∧
    (size = 0 →
      chunkRequestsTcp session_id reply_id size = [] ∧
      chunkRequestsUdp session_id reply_id size = [] ∧
      readResultTcp size incoming = [] ∧ readResultUdp size incoming = []) := by
  have htp0 : totalPackets 0 = 0 := by decide
  refine ⟨rfl, fun h => by rw [h]; exact htp0, fun h => ?_, by simp [chunkRequestsTcp],
    by simp [chunkRequestsUdp], fun i pkt h => ?_, fun i pkt h => ?_,
    fun i hi => ?_, fun hrem => ?_, fun hrem i => ?_, fun i => by omega,
    fun k1 k2 p c h1 h2 =>
      sends_before_recvs _ _ (recvEventsTcp_all_recv _ _ _) k1 k2 p c h1 h2,
    fun k1 k2 p c h1 h2 =>
      sends_before_recvs _ _ (recvEventsUdp_all_recv _ _ _) k1 k2 p c h1 h2,
    fun h => ?_⟩
  · simp only [totalPackets, MAX_CHUNK] at *
    omega
  · rw [List.get?_eq_getElem?] at h
    by_cases hi : i < totalPackets size
    · simp only [chunkRequestsTcp, List.getElem?_map, List.getElem?_range hi,
        Option.map_some'] at h
      have hpkt := Option.some.inj h
      subst hpkt
      refine ⟨?_, ?_, ?_⟩
      · rw [create_tcp_header_drop8]
        exact create_udp_header_command _ _ _ _ (by decide)
      · rw [show (16 : Nat) = 8 + 8 from rfl, ← List.drop_drop, create_tcp_header_drop8,
          create_udp_header_payload, chunkPayload]
      · rw [create_tcp_header_drop8]
        exact create_udp_header_reply _ _ _ _
    · have hnone : (List.range (totalPackets size))[i]? = none := by
        rw [List.getElem?_eq_none]
        simpa using Nat.le_of_not_lt hi
      simp [chunkRequestsTcp, List.getElem?_map, hnone] at h
  · rw [List.get?_eq_getElem?] at h
    by_cases hi : i < totalPackets size
    · simp only [chunkRequestsUdp, List.getElem?_map, List.getElem?_range hi,
        Option.map_some'] at h
      have hpkt := Option.some.inj h
      subst hpkt
      refine ⟨create_udp_header_command _ _ _ _ (by decide), ?_,
        create_udp_header_reply _ _ _ _⟩
      rw [create_udp_header_payload, chunkPayload]
    · have hnone : (List.range (totalPackets size))[i]? = none := by
        rw [List.getElem?_eq_none]
        simpa using Nat.le_of_not_lt hi
      simp [chunkRequestsUdp, List.getElem?_map, hnone] at h
  · unfold chunkLen
    rw [if_neg]
    rintro ⟨h1, -⟩
    omega
  · unfold chunkLen
    rw [if_pos ⟨rfl, hrem⟩]
  · unfold chunkLen
    rw [if_neg]
    rintro ⟨-, h2⟩
    omega
  · subst h
    refine ⟨by simp [chunkRequestsTcp, htp0], by simp [chunkRequestsUdp, htp0], ?_, ?_⟩
    · cases incoming <;>
        simp [readResultTcp, tcpRecvLoop, initTcpState, htp0]
    · cases incoming <;> simp [readResultUdp, udpRecvLoop]

/-- Witness for C5 at size `MAX_CHUNK + 1`: two chunks, the first of length
`MAX_CHUNK` and the last of length 1. -/
theorem chunked_read_correct_witness :
    chunkLen 65473 0 = MAX_CHUNK ∧
    chunkLen 65473 (totalPackets 65473 - 1) = 65473 % MAX_CHUNK :=
  ⟨(chunked_read_correct 0 0 65473 []).2.2.2.2.2.2.2.1 0 (by decide),
   (chunked_read_correct 0 0 65473 []).2.2.2.2.2.2.2.2.1 (by decide)⟩


end ZK
